import Mathlib

/-!
Verification development for the gocesiumtiler repository (shallow embedding).

We embed the Go code of `internal/geom/point.go`, the mock LAS reader, the
CLI option validation of `cmd/main.go`, the folder-command dispatch, and the
tiler options (functional-options pattern) of the `tiler` package.

Modelling conventions:
- Go `float64` coordinate values that undergo no arithmetic are modelled as
  rationals (`ℚ`); the single lossy operation in scope, Go's
  `float32(a - b)` conversion in `ToPointFromBaseline`, is abstracted by an
  explicit parameter `f32 : ℚ → ℚ` (the IEEE-754 binary32 rounding applied to
  the exact difference).  No theorem below depends on the behaviour of `f32`.
- Go `uint8` attribute values are copied verbatim by all code in scope; they
  are modelled as `Fin 256`.
- The CLI's `float64` flag values, which `validate` compares with IEEE-754
  semantics, are modelled as `GoFloat64` (a finite rational, an infinity, or
  NaN), so comparisons involving NaN behave as in Go.
- Go pointer-chained `LinkedPoint` lists (finite, non-cyclic) are modelled as
  Lean `List`s: `nil` pointer ↦ `[]`, node ↦ cons.
- Go `(T, error)` returns are modelled as `T × Option String` (zero value
  plus optional error message) or `Except String T` where the zero value is
  irrelevant.
-/

namespace Geom

/-- Embedding of `geom.Point64`: X,Y,Z double-precision coordinates plus
R,G,B, intensity and classification attributes. -/
structure Point64 where
  x : ℚ
  y : ℚ
  z : ℚ
  r : Fin 256
  g : Fin 256
  b : Fin 256
  intensity : Fin 256
  classification : Fin 256
deriving DecidableEq, Repr

/-- Embedding of `geom.Point32`: single-precision coordinates (kept as `ℚ`,
see module comment) plus the same attributes. -/
structure Point32 where
  x : ℚ
  y : ℚ
  z : ℚ
  r : Fin 256
  g : Fin 256
  b : Fin 256
  intensity : Fin 256
  classification : Fin 256
deriving DecidableEq, Repr

/-- Embedding of `geom.NewPoint32`. -/
def NewPoint32 (X Y Z : ℚ) (R G B Intensity Classification : Fin 256) : Point32 :=
  { x := X, y := Y, z := Z, r := R, g := G, b := B
    intensity := Intensity, classification := Classification }

/-- Embedding of `Point64.ToPointFromBaseline`.  `f32` abstracts the Go
`float32(·)` conversion applied to each (double-precision) coordinate
difference. -/
def Point64.toPointFromBaseline (f32 : ℚ → ℚ) (p baseline : Point64) : Point32 :=
  NewPoint32
    (f32 (p.x - baseline.x))
    (f32 (p.y - baseline.y))
    (f32 (p.z - baseline.z))
    p.r p.g p.b p.intensity p.classification

/-- Embedding of `geom.LinkedPointStream`: the `current` and `start` pointers
into the linked list are modelled as list suffixes; `len` is the count
supplied at construction (Go `int`). -/
structure LinkedPointStream where
  len : ℤ
  current : List Point32
  start : List Point32
deriving DecidableEq, Repr

/-- Embedding of `geom.NewLinkedPointStream root len`. -/
def NewLinkedPointStream (root : List Point32) (len : ℤ) : LinkedPointStream :=
  { len := len, current := root, start := root }

/-- Embedding of `LinkedPointStream.Next`: returns the current point and
advances, or an error once the current pointer is nil. -/
def LinkedPointStream.next (l : LinkedPointStream) :
    Except String Point32 × LinkedPointStream :=
  match l.current with
  | [] => (Except.error "no more points", l)
  | pt :: rest => (Except.ok pt, { l with current := rest })

/-- Embedding of `LinkedPointStream.Len`. -/
def LinkedPointStream.lenOf (l : LinkedPointStream) : ℤ :=
  l.len

/-- Embedding of `LinkedPointStream.Reset`: rewinds `current` to `start`. -/
def LinkedPointStream.reset (l : LinkedPointStream) : LinkedPointStream :=
  { l with current := l.start }

/-- Calling `Next` k times, collecting the k results in order. -/
def LinkedPointStream.nextN : Nat → LinkedPointStream →
    List (Except String Point32) × LinkedPointStream
  | 0, l => ([], l)
  | Nat.succ k, l =>
    let step := l.next
    let rest := LinkedPointStream.nextN k step.2
    (step.1 :: rest.1, rest.2)

/-- An observable operation on a stream (the mutating interface methods). -/
inductive StreamOp where
  | next
  | reset
deriving DecidableEq, Repr

/-- Apply a sequence of `Next`/`Reset` calls to a stream (results discarded,
state threaded through). -/
def LinkedPointStream.applyOps (ops : List StreamOp) (l : LinkedPointStream) :
    LinkedPointStream :=
  match ops with
  | [] => l
  | StreamOp.next :: rest => LinkedPointStream.applyOps rest l.next.2
  | StreamOp.reset :: rest => LinkedPointStream.applyOps rest l.reset

theorem LinkedPointStream.next_start_len (l : LinkedPointStream) :
    l.next.2.start = l.start ∧ l.next.2.len = l.len := by
  unfold LinkedPointStream.next
  cases l.current <;> simp

theorem LinkedPointStream.applyOps_start_len (ops : List StreamOp)
    (l : LinkedPointStream) :
    (LinkedPointStream.applyOps ops l).start = l.start ∧
    (LinkedPointStream.applyOps ops l).len = l.len := by
  induction ops generalizing l with
  | nil => simp [LinkedPointStream.applyOps]
  | cons op rest ih =>
    cases op with
    | next =>
      have h := LinkedPointStream.next_start_len l
      have h2 := ih l.next.2
      simp [LinkedPointStream.applyOps, h2.1, h2.2, h.1, h.2]
    | reset =>
      have h2 := ih l.reset
      simp only [LinkedPointStream.applyOps]
      rw [h2.1, h2.2]
      simp [LinkedPointStream.reset]

end Geom

namespace Las

/-- The zero value of `geom.Point64` (what Go's `geom.Point64{}` denotes). -/
def zeroPoint64 : Geom.Point64 :=
  { x := 0, y := 0, z := 0, r := 0, g := 0, b := 0
    intensity := 0, classification := 0 }

/-- Embedding of `las.MockLasReader`: cursor, stored points and the SRID.
The Go `Cur` field is an `int` that starts at the zero value 0 and is only
ever incremented by `GetNext`, so it is modelled as `ℕ`. -/
structure MockLasReader where
  cur : ℕ
  pts : List Geom.Point64
  srid : ℤ
deriving DecidableEq, Repr

/-- Embedding of `MockLasReader.NumberOfPoints`. -/
def MockLasReader.numberOfPoints (m : MockLasReader) : ℕ :=
  m.pts.length

/-- Embedding of `MockLasReader.GetSrid`. -/
def MockLasReader.getSrid (m : MockLasReader) : ℤ :=
  m.srid

/-- Embedding of `MockLasReader.GetNext`: returns the point at the cursor and
advances, or the zero-value point together with an error once the cursor has
passed the last stored point. -/
def MockLasReader.getNext (m : MockLasReader) :
    (Geom.Point64 × Option String) × MockLasReader :=
  if h : m.cur < m.pts.length then
    ((m.pts.get ⟨m.cur, h⟩, none), { m with cur := m.cur + 1 })
  else
    ((zeroPoint64, some "point not available"), m)

/-- Calling `GetNext` k times, collecting the k results in order. -/
def MockLasReader.getNextN : ℕ → MockLasReader →
    List (Geom.Point64 × Option String) × MockLasReader
  | 0, m => ([], m)
  | Nat.succ k, m =>
    let step := m.getNext
    let rest := MockLasReader.getNextN k step.2
    (step.1 :: rest.1, rest.2)

theorem MockLasReader.getNextN_from_cursor (m : MockLasReader) (k : ℕ)
    (hk : m.cur + k ≤ m.pts.length) :
    (MockLasReader.getNextN k m).1 =
      ((m.pts.drop m.cur).take k).map (fun p => (p, (none : Option String))) ∧
    (MockLasReader.getNextN k m).2 = { m with cur := m.cur + k } := by
  induction k generalizing m with
  | zero =>
    constructor
    · simp [MockLasReader.getNextN]
    · simp [MockLasReader.getNextN]
  | succ k ih =>
    have hcur : m.cur < m.pts.length := by omega
    have hnext : m.getNext =
        ((m.pts.get ⟨m.cur, hcur⟩, none), { m with cur := m.cur + 1 }) := by
      simp [MockLasReader.getNext, hcur]
    have hk' : ({ m with cur := m.cur + 1 } : MockLasReader).cur + k ≤
        ({ m with cur := m.cur + 1 } : MockLasReader).pts.length := by
      simp; omega
    have ihr := ih { m with cur := m.cur + 1 } hk'
    constructor
    · simp only [MockLasReader.getNextN, hnext, ihr.1]
      have hdrop : m.pts.drop m.cur =
          m.pts.get ⟨m.cur, hcur⟩ :: m.pts.drop (m.cur + 1) :=
        List.drop_eq_getElem_cons hcur
      rw [hdrop]
      simp only [List.take_succ_cons, List.map_cons]
    · simp only [MockLasReader.getNextN, hnext, ihr.2]
      congr 1
      omega

end Las

namespace Cli

/-- A Go `float64` value as far as the CLI code observes it: a finite value
(kept as `ℚ`; every finite IEEE-754 binary64 value is such a rational), one
of the two infinities, or NaN.  The CLI flag layer parses flags with
`strconv.ParseFloat`, which can produce every one of these. -/
inductive GoFloat64 where
  | nan
  | posInf
  | negInf
  | finite (q : ℚ)
deriving DecidableEq, Repr

/-- IEEE-754 `<` on observable `float64` values: every comparison involving
NaN is false; otherwise the order is `negInf < finite _ < posInf` with the
rational order on finite values.  Go's `a > b` is `GoFloat64.lt b a`. -/
def GoFloat64.lt : GoFloat64 → GoFloat64 → Bool
  | GoFloat64.nan, _ => false
  | _, GoFloat64.nan => false
  | GoFloat64.negInf, GoFloat64.negInf => false
  | GoFloat64.negInf, GoFloat64.posInf => true
  | GoFloat64.negInf, GoFloat64.finite _ => true
  | GoFloat64.posInf, _ => false
  | GoFloat64.finite _, GoFloat64.negInf => false
  | GoFloat64.finite _, GoFloat64.posInf => true
  | GoFloat64.finite q, GoFloat64.finite r => decide (q < r)

/-- Membership of a `float64` value in a closed interval of the real line:
only finite values lie in it; NaN and the infinities never do. -/
def GoFloat64.inRange (lo hi : ℚ) : GoFloat64 → Bool
  | GoFloat64.finite q => decide (lo ≤ q ∧ q ≤ hi)
  | _ => false

/-- Embedding of `main.cliOpts`.  The `float64` fields are modelled as
`GoFloat64` so that NaN and infinity inputs are represented. -/
structure CliOpts where
  output : String
  epsg : ℤ
  maxDepth : ℤ
  minPoints : ℤ
  resolution : GoFloat64
  zOffset : GoFloat64
  geoid : Bool
  eightBit : Bool
  join : Bool
deriving DecidableEq, Repr

/-- Embedding of `main.defaultCliOptions` (the Go zero value of `output` is
the empty string). -/
def defaultCliOptions : CliOpts :=
  { output := "", epsg := -1, maxDepth := 10, minPoints := 5000
    resolution := GoFloat64.finite 20, zOffset := GoFloat64.finite 0
    geoid := false, eightBit := false, join := false }

/-- Embedding of `cliOpts.validate`: `true` iff no `log.Fatal` branch fires.
Each `if` mirrors one fatal check of the source, in order; the resolution
check is Go's `c.resolution < 0.5 || c.resolution > 1000` under IEEE-754
comparison semantics. -/
def CliOpts.validateOk (c : CliOpts) : Bool :=
  if c.output = "" then false
  else if c.epsg ≤ 0 then false
  else if c.maxDepth ≤ 1 ∨ c.maxDepth > 20 then false
  else if c.minPoints < 1 then false
  else if GoFloat64.lt c.resolution (GoFloat64.finite (1/2)) = true ∨
      GoFloat64.lt (GoFloat64.finite 1000) c.resolution = true then false
  else true

/-- An otherwise-valid options record whose resolution flag parsed to NaN. -/
def nanResolutionOpts : CliOpts :=
  { output := "out", epsg := 4326, maxDepth := 10, minPoints := 5000
    resolution := GoFloat64.nan, zOffset := GoFloat64.finite 0
    geoid := false, eightBit := false, join := false }

/-- A call into the tiler interface made by the CLI layer (the two entry
points used by `folderCommand`). -/
inductive TilerCall where
  | processFiles (files : List String)
  | processFolder (folderpath : String)
deriving DecidableEq, Repr

/-- Embedding of the runnable built by `main.folderCommand`: `findResult` is
the outcome of the external `utils.FindLasFilesInFolder(folderpath)` call.
On `join` it forwards the discovered file list to `ProcessFiles` (propagating
a discovery error); otherwise it calls `ProcessFolder` on the folder path. -/
def folderCommandCall (join : Bool) (findResult : Except String (List String))
    (folderpath : String) : Except String TilerCall :=
  if join then
    match findResult with
    | Except.error e => Except.error e
    | Except.ok files => Except.ok (TilerCall.processFiles files)
  else
    Except.ok (TilerCall.processFolder folderpath)

end Cli

namespace Tiler

/-- Embedding of `tiler.TilerOptions`.  The callback field (a Go function
value, `nil` by default) is modelled as `Option C` for an abstract callback
type `C`. -/
structure TilerOptions (C : Type) where
  gridSize : ℚ
  maxDepth : ℤ
  elevationOffset : ℚ
  eightBitColors : Bool
  geoidElevation : Bool
  numWorkers : ℤ
  minPointsPerTile : ℤ
  callback : Option C
deriving DecidableEq, Repr

/-- Embedding of `tiler.NewDefaultTilerOptions`; `numCPU` is the value of the
external `runtime.NumCPU()` call. -/
def NewDefaultTilerOptions (C : Type) (numCPU : ℤ) : TilerOptions C :=
  { gridSize := 20, maxDepth := 10, elevationOffset := 0
    numWorkers := numCPU, minPointsPerTile := 5000
    eightBitColors := false, geoidElevation := false, callback := none }

/-- Deep embedding of the `tilerOptionsFn` values the `tiler` package
exports; each constructor carries the argument of the corresponding `WithX`
function. -/
inductive TilerOptionsFn (C : Type) where
  | withGridSize (size : ℚ)
  | withMaxDepth (maxDepth : ℤ)
  | withElevationOffset (offset : ℚ)
  | withWorkerNumber (numWorkers : ℤ)
  | withMinPointsPerTile (minPointsPerTile : ℤ)
  | withCallback (callback : C)
  | withEightBitColors (eightBit : Bool)
  | withGeoidElevation (geoid : Bool)
deriving DecidableEq, Repr

/-- The mutation performed by each `WithX` option function (the body of the
closure it returns in the source). -/
def TilerOptionsFn.apply {C : Type} (fn : TilerOptionsFn C)
    (opt : TilerOptions C) : TilerOptions C :=
  match fn with
  | TilerOptionsFn.withGridSize size => { opt with gridSize := size }
  | TilerOptionsFn.withMaxDepth maxDepth => { opt with maxDepth := maxDepth }
  | TilerOptionsFn.withElevationOffset offset =>
      { opt with elevationOffset := offset }
  | TilerOptionsFn.withWorkerNumber numWorkers =>
      { opt with numWorkers := numWorkers }
  | TilerOptionsFn.withMinPointsPerTile minPointsPerTile =>
      { opt with minPointsPerTile := minPointsPerTile }
  | TilerOptionsFn.withCallback callback => { opt with callback := some callback }
  | TilerOptionsFn.withEightBitColors eightBit =>
      { opt with eightBitColors := eightBit }
  | TilerOptionsFn.withGeoidElevation geoid => { opt with geoidElevation := geoid }

/-- Embedding of `tiler.NewTilerOptions`: defaults, then each option function
applied in argument order. -/
def NewTilerOptions (C : Type) (numCPU : ℤ) (optFn : List (TilerOptionsFn C)) :
    TilerOptions C :=
  optFn.foldl (fun opts fn => fn.apply opts) (NewDefaultTilerOptions C numCPU)

/-- The field of `TilerOptions` that an option function is designated to
set. -/
inductive OptField where
  | gridSize
  | maxDepth
  | elevationOffset
  | numWorkers
  | minPointsPerTile
  | callback
  | eightBitColors
  | geoidElevation
deriving DecidableEq, Repr

/-- The designated field of each `WithX` option function. -/
def TilerOptionsFn.field {C : Type} : TilerOptionsFn C → OptField
  | TilerOptionsFn.withGridSize _ => OptField.gridSize
  | TilerOptionsFn.withMaxDepth _ => OptField.maxDepth
  | TilerOptionsFn.withElevationOffset _ => OptField.elevationOffset
  | TilerOptionsFn.withWorkerNumber _ => OptField.numWorkers
  | TilerOptionsFn.withMinPointsPerTile _ => OptField.minPointsPerTile
  | TilerOptionsFn.withCallback _ => OptField.callback
  | TilerOptionsFn.withEightBitColors _ => OptField.eightBitColors
  | TilerOptionsFn.withGeoidElevation _ => OptField.geoidElevation

/-- Two option records agree on a given field. -/
def agreeOn {C : Type} (f : OptField) (o₁ o₂ : TilerOptions C) : Prop :=
  match f with
  | OptField.gridSize => o₁.gridSize = o₂.gridSize
  | OptField.maxDepth => o₁.maxDepth = o₂.maxDepth
  | OptField.elevationOffset => o₁.elevationOffset = o₂.elevationOffset
  | OptField.numWorkers => o₁.numWorkers = o₂.numWorkers
  | OptField.minPointsPerTile => o₁.minPointsPerTile = o₂.minPointsPerTile
  | OptField.callback => o₁.callback = o₂.callback
  | OptField.eightBitColors => o₁.eightBitColors = o₂.eightBitColors
  | OptField.geoidElevation => o₁.geoidElevation = o₂.geoidElevation

end Tiler

namespace Claims

/-- C2: for a `LinkedPointStream` built over a finite non-cyclic linked list,
after any sequence of `Next`/`Reset` calls, calling `Reset` and then `Next`
repeatedly yields exactly the same result sequence, in the same order, as the
freshly constructed stream does; in particular the stream is restartable any
number of times. -/
theorem reset_then_next_replays_fresh_sequence (root : List Geom.Point32)
    (len : ℤ) (ops : List Geom.StreamOp) (k : ℕ) :
    (Geom.LinkedPointStream.nextN k
      (Geom.LinkedPointStream.applyOps ops
        (Geom.NewLinkedPointStream root len)).reset).1 =
    (Geom.LinkedPointStream.nextN k (Geom.NewLinkedPointStream root len)).1 := by
  have hs := Geom.LinkedPointStream.applyOps_start_len ops
    (Geom.NewLinkedPointStream root len)
  have h1 : (Geom.LinkedPointStream.applyOps ops
      (Geom.NewLinkedPointStream root len)).start = root := hs.1
  have h2 : (Geom.LinkedPointStream.applyOps ops
      (Geom.NewLinkedPointStream root len)).len = len := hs.2
  have hre : (Geom.LinkedPointStream.applyOps ops
      (Geom.NewLinkedPointStream root len)).reset =
      Geom.NewLinkedPointStream root len := by
    unfold Geom.LinkedPointStream.reset
    rw [h1, h2]
    rfl
  rw [hre]

/-- C3: a fresh `MockLasReader` holding `n` stored points reports
`NumberOfPoints = n`, and its first `n` `GetNext` calls return exactly the `n`
stored points, in storage order, each with no error. -/
theorem fresh_reader_delivers_all_points_in_order (pts : List Geom.Point64)
    (srid : ℤ) :
    Las.MockLasReader.numberOfPoints ⟨0, pts, srid⟩ = pts.length ∧
    (Las.MockLasReader.getNextN pts.length ⟨0, pts, srid⟩).1 =
      pts.map (fun p => (p, (none : Option String))) := by
  constructor
  · rfl
  · have h := Las.MockLasReader.getNextN_from_cursor ⟨0, pts, srid⟩ pts.length
      (by simp)
    simpa using h.1

/-- C4: once the cursor has passed all stored points, every further `GetNext`
returns the zero-value point with the end-of-stream error and leaves the
reader's state — hence `NumberOfPoints` and `GetSrid` — unchanged, so the
same error recurs on the next call too. -/
theorem exhausted_reader_keeps_failing (m : Las.MockLasReader)
    (h : m.pts.length ≤ m.cur) :
    Las.MockLasReader.getNext m =
      ((Las.zeroPoint64, some "point not available"), m) ∧
    (Las.MockLasReader.getNext m).2.numberOfPoints = m.numberOfPoints ∧
    (Las.MockLasReader.getNext m).2.getSrid = m.getSrid ∧
    (Las.MockLasReader.getNext (Las.MockLasReader.getNext m).2).1 =
      (Las.zeroPoint64, some "point not available") := by
  have hlt : ¬ m.cur < m.pts.length := Nat.not_lt.mpr h
  have hstep : Las.MockLasReader.getNext m =
      ((Las.zeroPoint64, some "point not available"), m) := by
    simp [Las.MockLasReader.getNext, hlt]
  refine ⟨hstep, ?_, ?_, ?_⟩
  · rw [hstep]
  · rw [hstep]
  · rw [hstep, hstep]

theorem exhausted_reader_keeps_failing_witness :
    Las.MockLasReader.getNext ⟨0, [], 4326⟩ =
      ((Las.zeroPoint64, some "point not available"), ⟨0, [], 4326⟩) ∧
    (Las.MockLasReader.getNext ⟨0, [], 4326⟩).2.numberOfPoints =
      Las.MockLasReader.numberOfPoints ⟨0, [], 4326⟩ ∧
    (Las.MockLasReader.getNext ⟨0, [], 4326⟩).2.getSrid =
      Las.MockLasReader.getSrid ⟨0, [], 4326⟩ ∧
    (Las.MockLasReader.getNext
        (Las.MockLasReader.getNext ⟨0, [], 4326⟩).2).1 =
      (Las.zeroPoint64, some "point not available") :=
  exhausted_reader_keeps_failing ⟨0, [], 4326⟩ (by simp)

/-- C5 counterexample: `cliOpts.validate` accepts an options record whose
resolution flag parsed to NaN, although NaN does not lie in `[0.5, 1000]` —
both IEEE-754 range comparisons are false on NaN, so no fatal branch fires.
This refutes the claimed if-and-only-if as stated. -/
theorem validateOk_accepts_nan_outside_range :
    Cli.CliOpts.validateOk Cli.nanResolutionOpts = true ∧
    Cli.GoFloat64.inRange (1/2) 1000 Cli.nanResolutionOpts.resolution = false := by
  constructor
  · rfl
  · rfl

theorem resolution_check_false_iff (x : Cli.GoFloat64) :
    (¬(Cli.GoFloat64.lt x (Cli.GoFloat64.finite (1/2)) = true ∨
        Cli.GoFloat64.lt (Cli.GoFloat64.finite 1000) x = true)) ↔
    (Cli.GoFloat64.inRange (1/2) 1000 x = true ∨ x = Cli.GoFloat64.nan) := by
  cases x with
  | nan => simp [Cli.GoFloat64.lt, Cli.GoFloat64.inRange]
  | posInf => simp [Cli.GoFloat64.lt, Cli.GoFloat64.inRange]
  | negInf => simp [Cli.GoFloat64.lt, Cli.GoFloat64.inRange]
  | finite q =>
    simp only [Cli.GoFloat64.lt, Cli.GoFloat64.inRange, not_or,
      decide_eq_true_eq, not_lt, reduceCtorEq, or_false]

/-- C5 (amended): `cliOpts.validate` passes (reaches no fatal branch) if and
only if the output path is non-empty, the EPSG code is positive, `maxDepth`
is in `[2, 20]`, `minPoints` is at least 1, and the resolution is either a
value in `[0.5, 1000]` or NaN (which both range comparisons fail to reject);
every other configuration is rejected fatally. -/
theorem validate_accepts_iff_in_ranges_or_nan (c : Cli.CliOpts) :
    c.validateOk = true ↔
      (c.output ≠ "" ∧ 0 < c.epsg ∧ 2 ≤ c.maxDepth ∧ c.maxDepth ≤ 20 ∧
        1 ≤ c.minPoints ∧
        (Cli.GoFloat64.inRange (1/2) 1000 c.resolution = true ∨
          c.resolution = Cli.GoFloat64.nan)) := by
  unfold Cli.CliOpts.validateOk
  split_ifs with h1 h2 h3 h4 h5
  · simp only [Bool.false_eq_true, false_iff]
    rintro ⟨hc, -⟩
    exact hc h1
  · simp only [Bool.false_eq_true, false_iff]
    rintro ⟨-, hc, -⟩
    omega
  · simp only [Bool.false_eq_true, false_iff]
    rintro ⟨-, -, ha, hb, -⟩
    omega
  · simp only [Bool.false_eq_true, false_iff]
    rintro ⟨-, -, -, -, hc, -⟩
    omega
  · simp only [Bool.false_eq_true, false_iff]
    rintro ⟨-, -, -, -, -, hres⟩
    exact absurd h5 ((resolution_check_false_iff c.resolution).mpr hres)
  · simp only [true_iff]
    push_neg at h3
    exact ⟨h1, by omega, by omega, h3.2, by omega,
      (resolution_check_false_iff c.resolution).mp h5⟩

/-- C6: converting a `Point64` to a local point via `ToPointFromBaseline`
leaves the non-coordinate attributes R, G, B, intensity and classification
equal to those of the input, for every baseline (and every behaviour of the
single-precision conversion). -/
theorem toPointFromBaseline_preserves_attributes (f32 : ℚ → ℚ)
    (p baseline : Geom.Point64) :
    (p.toPointFromBaseline f32 baseline).r = p.r ∧
    (p.toPointFromBaseline f32 baseline).g = p.g ∧
    (p.toPointFromBaseline f32 baseline).b = p.b ∧
    (p.toPointFromBaseline f32 baseline).intensity = p.intensity ∧
    (p.toPointFromBaseline f32 baseline).classification = p.classification := by
  refine ⟨rfl, rfl, rfl, rfl, rfl⟩

/-- C7: in folder mode, with the join flag set the command makes exactly one
tiler call, `ProcessFiles` on the file list discovered in the folder (and
never `ProcessFolder`); with the flag unset it makes exactly one call,
`ProcessFolder` on the folder path (and never `ProcessFiles`). -/
theorem folder_command_dispatch (findResult : Except String (List String))
    (folderpath : String) :
    (∀ files, findResult = Except.ok files →
      Cli.folderCommandCall true findResult folderpath =
        Except.ok (Cli.TilerCall.processFiles files)) ∧
    (∀ files p, findResult = Except.ok files →
      Cli.folderCommandCall true findResult folderpath ≠
        Except.ok (Cli.TilerCall.processFolder p)) ∧
    (Cli.folderCommandCall false findResult folderpath =
      Except.ok (Cli.TilerCall.processFolder folderpath)) ∧
    (∀ files, Cli.folderCommandCall false findResult folderpath ≠
      Except.ok (Cli.TilerCall.processFiles files)) := by
  refine ⟨?_, ?_, ?_, ?_⟩
  · intro files hfind
    simp [Cli.folderCommandCall, hfind]
  · intro files p hfind
    simp [Cli.folderCommandCall, hfind]
  · simp [Cli.folderCommandCall]
  · intro files
    simp [Cli.folderCommandCall]

theorem folder_command_dispatch_witness :
    Cli.folderCommandCall true (Except.ok ["a.las", "b.las"]) "dir" =
      Except.ok (Cli.TilerCall.processFiles ["a.las", "b.las"]) ∧
    Cli.folderCommandCall true (Except.ok ["a.las", "b.las"]) "dir" ≠
      Except.ok (Cli.TilerCall.processFolder "dir") ∧
    Cli.folderCommandCall false (Except.ok ["a.las", "b.las"]) "dir" =
      Except.ok (Cli.TilerCall.processFolder "dir") :=
  ⟨(folder_command_dispatch (Except.ok ["a.las", "b.las"]) "dir").1 _ rfl,
   (folder_command_dispatch (Except.ok ["a.las", "b.las"]) "dir").2.1 _ _ rfl,
   (folder_command_dispatch (Except.ok ["a.las", "b.las"]) "dir").2.2.1⟩

theorem numWorkers_foldl_invariant {C : Type} (fns : List (Tiler.TilerOptionsFn C))
    (o : Tiler.TilerOptions C)
    (h : ∀ fn ∈ fns, Tiler.TilerOptionsFn.field fn ≠ Tiler.OptField.numWorkers) :
    (fns.foldl (fun opts fn => fn.apply opts) o).numWorkers = o.numWorkers := by
  induction fns generalizing o with
  | nil => rfl
  | cons fn rest ih =>
    have h1 := h fn (by simp)
    have hrest : ∀ g ∈ rest,
        Tiler.TilerOptionsFn.field g ≠ Tiler.OptField.numWorkers :=
      fun g hg => h g (by simp [hg])
    rw [List.foldl_cons, ih _ hrest]
    cases fn <;>
      simp_all [Tiler.TilerOptionsFn.apply, Tiler.TilerOptionsFn.field]

/-- C8: `NewDefaultTilerOptions` stores the host parallelism (the value of
`runtime.NumCPU()`) in the explicit `numWorkers` configuration field, and
`NewTilerOptions` keeps that default whenever none of the supplied option
functions is `WithWorkerNumber`. -/
theorem default_worker_count_is_num_cpu (C : Type) (numCPU : ℤ)
    (fns : List (Tiler.TilerOptionsFn C))
    (h : ∀ fn ∈ fns, Tiler.TilerOptionsFn.field fn ≠ Tiler.OptField.numWorkers) :
    (Tiler.NewDefaultTilerOptions C numCPU).numWorkers = numCPU ∧
    (Tiler.NewTilerOptions C numCPU fns).numWorkers = numCPU := by
  constructor
  · rfl
  · unfold Tiler.NewTilerOptions
    rw [numWorkers_foldl_invariant fns _ h]
    rfl

theorem default_worker_count_is_num_cpu_witness :
    (Tiler.NewDefaultTilerOptions ℕ 8).numWorkers = 8 ∧
    (Tiler.NewTilerOptions ℕ 8
      [Tiler.TilerOptionsFn.withGridSize 5,
       Tiler.TilerOptionsFn.withMaxDepth 3]).numWorkers = 8 :=
  default_worker_count_is_num_cpu ℕ 8
    [Tiler.TilerOptionsFn.withGridSize 5, Tiler.TilerOptionsFn.withMaxDepth 3]
    (by decide)

/-- C9: `NewTilerOptions` folds the option functions left to right over the
defaults; each option function changes only its designated field (frame
condition on every other field); option functions on distinct fields
commute; and of two option functions on the same field the one applied last
wins. -/
theorem tiler_options_apply_semantics (C : Type) (numCPU : ℤ)
    (fns : List (Tiler.TilerOptionsFn C)) (f g : Tiler.TilerOptionsFn C)
    (o : Tiler.TilerOptions C) :
    (Tiler.NewTilerOptions C numCPU fns =
      fns.foldl (fun opts fn => fn.apply opts)
        (Tiler.NewDefaultTilerOptions C numCPU)) ∧
    (∀ fld, fld ≠ Tiler.TilerOptionsFn.field f →
      Tiler.agreeOn fld (f.apply o) o) ∧
    (Tiler.TilerOptionsFn.field f ≠ Tiler.TilerOptionsFn.field g →
      f.apply (g.apply o) = g.apply (f.apply o)) ∧
    (Tiler.TilerOptionsFn.field f = Tiler.TilerOptionsFn.field g →
      f.apply (g.apply o) = f.apply o) := by
  refine ⟨rfl, ?_, ?_, ?_⟩
  · intro fld hne
    cases f <;> cases fld <;> first | exact absurd rfl hne | rfl
  · intro hne
    cases f <;> cases g <;> first | exact absurd rfl hne | rfl
  · intro heq
    cases f <;> cases g <;>
      first
        | rfl
        | simp [Tiler.TilerOptionsFn.field] at heq

theorem tiler_options_apply_semantics_witness :
    Tiler.agreeOn Tiler.OptField.maxDepth
      ((Tiler.TilerOptionsFn.withGridSize (C := ℕ) 5).apply
        (Tiler.NewDefaultTilerOptions ℕ 4))
      (Tiler.NewDefaultTilerOptions ℕ 4) ∧
    (Tiler.TilerOptionsFn.withGridSize (C := ℕ) 5).apply
        ((Tiler.TilerOptionsFn.withMaxDepth 3).apply
          (Tiler.NewDefaultTilerOptions ℕ 4)) =
      (Tiler.TilerOptionsFn.withMaxDepth 3).apply
        ((Tiler.TilerOptionsFn.withGridSize 5).apply
          (Tiler.NewDefaultTilerOptions ℕ 4)) ∧
    (Tiler.TilerOptionsFn.withGridSize (C := ℕ) 5).apply
        ((Tiler.TilerOptionsFn.withGridSize 7).apply
          (Tiler.NewDefaultTilerOptions ℕ 4)) =
      (Tiler.TilerOptionsFn.withGridSize 5).apply
        (Tiler.NewDefaultTilerOptions ℕ 4) :=
  ⟨(tiler_options_apply_semantics ℕ 4 [] (Tiler.TilerOptionsFn.withGridSize 5)
      (Tiler.TilerOptionsFn.withMaxDepth 3)
      (Tiler.NewDefaultTilerOptions ℕ 4)).2.1 Tiler.OptField.maxDepth
      (by decide),
   (tiler_options_apply_semantics ℕ 4 [] (Tiler.TilerOptionsFn.withGridSize 5)
      (Tiler.TilerOptionsFn.withMaxDepth 3)
      (Tiler.NewDefaultTilerOptions ℕ 4)).2.2.1 (by decide),
   (tiler_options_apply_semantics ℕ 4 [] (Tiler.TilerOptionsFn.withGridSize 5)
      (Tiler.TilerOptionsFn.withGridSize 7)
      (Tiler.NewDefaultTilerOptions ℕ 4)).2.2.2 rfl⟩

/-- C10: `Len` always returns the length supplied at construction — it is
invariant under any sequence of `Next` and `Reset` calls — and it is never
cross-checked against the linked list, so it can disagree with what `Next`
delivers: a stream built from the nil root with claimed length 5 reports
`Len = 5` yet its very first `Next` already returns the error. -/
theorem len_is_constructor_supplied_and_unchecked :
    (∀ (root : List Geom.Point32) (len : ℤ) (ops : List Geom.StreamOp),
      (Geom.LinkedPointStream.applyOps ops
        (Geom.NewLinkedPointStream root len)).lenOf = len) ∧
    (Geom.NewLinkedPointStream [] 5).lenOf = 5 ∧
    (Geom.NewLinkedPointStream [] 5).next.1 =
      Except.error "no more points" := by
  refine ⟨?_, rfl, rfl⟩
  intro root len ops
  exact (Geom.LinkedPointStream.applyOps_start_len ops
    (Geom.NewLinkedPointStream root len)).2

end Claims
